import Mathlib

/-!
# Maya server: CLI command table and the volume provisioner contract

A shallow embedding of `commands.go` (the function `Commands`) and of
`lib/volumeprovisioner/volume.go` (the interface `VolumeInterface` and its
capability interfaces), followed by the properties established about them.

Conventions of the embedding

* A Go `string` is a finite sequence of bytes (`GoString`); `s[i]` reads a
  byte and fails on an index out of range, `s[1:]` drops the first byte.
* A Go interface value or pointer that may be `nil` is an `Option`.
* A Go function that may stop with a run-time failure returns an `Option`
  (`none` is the failure).
* A method of an interface is a state transformer over the program state `σ`.
-/

namespace Maya

/-! ## Go strings -/

/-- One byte of a Go string. -/
abbrev Byte := Fin 256

/-- A Go string: an immutable sequence of bytes. -/
abbrev GoString := List Byte

/-- The bytes of a string literal of the source (its UTF-8 encoding). -/
def goStr (s : String) : GoString :=
  (s.toList.flatMap String.utf8EncodeChar).map (fun b => Fin.ofNat b.toNat)

/-- The Go expression `s[i]` on a string: the byte at `i`, failing when `i` is out of range. -/
def GoString.index (s : GoString) (i : Nat) : Option Byte := s.get? i

/-- The Go expression `s[1:]` on a string: fails when the string is empty. -/
def GoString.sliceFrom1 (s : GoString) : Option GoString :=
  if 1 ≤ s.length then some (s.drop 1) else none

/-- The byte of the rune literal `'v'`. -/
def byte_v : Byte := 118

/-! ## The types `Commands` uses -/

/-- The standard streams of package `os`, and any other reader or writer. -/
inductive Stream where
  | Stdin
  | Stdout
  | Stderr
  | Other (tag : Nat)
deriving DecidableEq, Repr

/-- The struct `cli.BasicUi`, with the three fields the source sets. -/
structure BasicUi where
  Reader : Option Stream
  Writer : Option Stream
  ErrorWriter : Option Stream
deriving DecidableEq, Repr

/-- A dynamic value of the interface `cli.Ui`: a `*cli.BasicUi` (possibly a nil
pointer) or a value of some other implementing type. -/
inductive UiValue where
  | BasicUiPtr (p : Option BasicUi)
  | Other (tag : Nat)
deriving DecidableEq, Repr

/-- The interface `cli.Ui`; `none` is the nil interface. -/
abbrev Ui := Option UiValue

/-- The struct `cmd.Meta`: the field `Ui` the source reads, and the remaining
fields, whose declaration is outside the embedded files, as `rest`. -/
structure Meta (ρ : Type) where
  Ui : Ui
  rest : ρ

/-- The value of `make(chan struct{})`: an open channel without buffer. -/
structure Chan where
  capacity : Nat
  closed : Bool
deriving DecidableEq, Repr

/-- The Go expression `make(chan struct{})`. -/
def makeChan : Chan := { capacity := 0, closed := false }

/-- The struct `cmd.UpCommand`, with the fields of the composite literal in `Commands`. -/
structure UpCommand where
  Revision : GoString
  Version : GoString
  VersionPrerelease : GoString
  Ui : Ui
  ShutdownCh : Option Chan
deriving DecidableEq, Repr

/-- The struct `cmd.VersionCommand`, with the fields of the composite literal in `Commands`. -/
structure VersionCommand where
  Revision : GoString
  Version : GoString
  VersionPrerelease : GoString
  Ui : Ui
deriving DecidableEq, Repr

/-- A non-nil value of the interface `cli.Command` as `Commands` builds it: a
pointer to an `UpCommand` or to a `VersionCommand`. -/
inductive Command where
  | Up (c : UpCommand)
  | Version (c : VersionCommand)
deriving DecidableEq, Repr

/-- A Go `error` value other than nil. -/
abbrev GoError := GoString

/-- The type `cli.CommandFactory`, `func() (cli.Command, error)`; the outer
`Option` is `none` when the call stops with a run-time failure. -/
abbrev CommandFactory := Unit → Option (Option Command × Option GoError)

/-- The package-level variables of package `main` that `Commands` reads. -/
structure Globals where
  GitCommit : GoString
  GitDescribe : GoString
  Version : GoString
  VersionPrerelease : GoString
deriving DecidableEq, Repr

/-- A `map[string]cli.CommandFactory` built by a map literal: its entries, with distinct keys. -/
abbrev CommandMap := List (GoString × CommandFactory)

/-- The keys of a command map. -/
def CommandMap.keys (m : CommandMap) : List GoString := m.map Prod.fst

/-- The Go expression `m[k]` with the presence flag: the factory stored under `k`. -/
def CommandMap.lookup (m : CommandMap) (k : GoString) : Option CommandFactory :=
  match m with
  | [] => none
  | (k', f) :: rest => if k = k' then some f else CommandMap.lookup rest k

/-- Looks up the factory stored under `k` and calls it. -/
def CommandMap.build (m : CommandMap) (k : GoString) :
    Option (Option Command × Option GoError) :=
  match m.lookup k with
  | none => none
  | some f => f ()

/-! ## `Commands` -/

/-- The default `&cli.BasicUi{Reader: os.Stdin, Writer: os.Stdout, ErrorWriter: os.Stderr}`. -/
def defaultBasicUi : UiValue :=
  UiValue.BasicUiPtr (some { Reader := some Stream.Stdin, Writer := some Stream.Stdout,
                             ErrorWriter := some Stream.Stderr })

/-- The Go expression `new(cmd.Meta)`: a `Meta` with every field at its zero value. -/
def newMeta (ρ : Type) [Inhabited ρ] : Meta ρ := { Ui := none, rest := default }

/-- The first statements of `Commands`: replace a nil `metaPtr`, copy the struct,
and fill a nil `Ui` with the default `BasicUi`. -/
def resolveMeta {ρ : Type} [Inhabited ρ] (metaPtr : Option (Meta ρ)) : Meta ρ :=
  let metaPtr := match metaPtr with
    | none => newMeta ρ
    | some m => m
  let meta := metaPtr
  if meta.Ui = none then { meta with Ui := some defaultBasicUi } else meta

/-- The function literal stored under `"up"`. -/
def upFactory (g : Globals) (ui : Ui) : CommandFactory := fun _ =>
  some (some (Command.Up
    { Revision := g.GitCommit
      Version := g.Version
      VersionPrerelease := g.VersionPrerelease
      Ui := ui
      ShutdownCh := some makeChan }), none)

/-- The statements of the `"version"` function literal that compute `ver`. -/
def versionVer (g : Globals) : Option GoString :=
  let ver := g.Version
  if g.GitDescribe ≠ [] then
    let ver := g.GitDescribe
    match ver.index 0 with
    | none => none
    | some b => if b = byte_v then ver.sliceFrom1 else some ver
  else some ver

/-- The guard of the assignment `rel = "dev"` in the `"version"` function literal. -/
def devGuard (g : Globals) (rel : GoString) : Bool :=
  decide (g.GitDescribe = []) && decide (rel = []) && decide (g.VersionPrerelease ≠ [])

/-- The statements of the `"version"` function literal that compute `rel`. -/
def versionRel (g : Globals) : GoString :=
  let rel := g.VersionPrerelease
  if devGuard g rel then goStr "dev" else rel

/-- The function literal stored under `"version"`. -/
def versionFactory (g : Globals) (ui : Ui) : CommandFactory := fun _ =>
  match versionVer g with
  | none => none
  | some ver =>
    let rel := versionRel g
    some (some (Command.Version
      { Revision := g.GitCommit
        Version := ver
        VersionPrerelease := rel
        Ui := ui }), none)

/-- The function `Commands` of `commands.go`. -/
def Commands {ρ : Type} [Inhabited ρ] (g : Globals) (metaPtr : Option (Meta ρ)) : CommandMap :=
  let meta := resolveMeta metaPtr
  [ (goStr "up", upFactory g meta.Ui),
    (goStr "version", versionFactory g meta.Ui) ]

/-- Package variables that are all the empty string. -/
def emptyGlobals : Globals :=
  { GitCommit := [], GitDescribe := [], Version := [], VersionPrerelease := [] }

/-- The `Ui` field of a command built by `Commands`. -/
def Command.Ui : Command → Ui
  | Command.Up c => c.Ui
  | Command.Version c => c.Ui

/-! ## The volume provisioner contract (`volume.go`)

Every method is a state transformer over the program state `σ`: it returns its
results together with the state it leaves behind. The types
`v1.PersistentVolumeClaim` and `v1.PersistentVolume` are declared outside the
embedded files and are the parameters `Claim` and `PV`; a pointer to one of
them is an `Option`. -/

/-- Modelled from the spec: the type `v1.PersistentVolumeList`, whose declaration
is outside the embedded files; an ordered sequence of volumes. -/
structure PersistentVolumeList (PV : Type) where
  Items : List PV
deriving DecidableEq, Repr

/-- The results of a method returning `(*T, error)`. -/
abbrev Result (α : Type) := Option α × Option GoError

/-- The interface `Informer`. -/
structure Informer (σ Claim PV : Type) where
  Info : Option Claim → σ → Result PV × σ

/-- The interface `Reader`. -/
structure Reader (σ Claim PV : Type) where
  Read : Option Claim → σ → Result (PersistentVolumeList PV) × σ

/-- The interface `Provisioner`. -/
structure Provisioner (σ Claim PV : Type) where
  Provision : Option Claim → σ → Result PV × σ

/-- The interface `Adder`. -/
structure Adder (σ Claim PV : Type) where
  Add : Option Claim → σ → Result (PersistentVolumeList PV) × σ

/-- The interface `Deleter`. -/
structure Deleter (σ Claim PV : Type) where
  Delete : Option PV → σ → Result PV × σ

/-- What a capability accessor returns: an interface value (`none` is nil) and
the supported flag. -/
abbrev Handle (α : Type) := Option α × Bool

/-- The interface `VolumeInterface`: an implementation gives the eight methods. -/
structure VolumeInterface (σ Claim PV : Type) where
  Label : σ → GoString × σ
  Name : σ → GoString × σ
  Profile : Option Claim → σ → (Bool × Option GoError) × σ
  Provisioner : σ → Handle (Maya.Provisioner σ Claim PV) × σ
  Deleter : σ → Handle (Maya.Deleter σ Claim PV) × σ
  Informer : σ → Handle (Maya.Informer σ Claim PV) × σ
  Reader : σ → Handle (Maya.Reader σ Claim PV) × σ
  Adder : σ → Handle (Maya.Adder σ Claim PV) × σ

/-! ### Implementations of the contract used as instances -/

/-- A `Reader` that reports an empty volume list and a nil error. -/
def emptyReader (σ Claim PV : Type) : Reader σ Claim PV :=
  { Read := fun _ s => ((some { Items := [] }, none), s) }

/-- An `Adder` that reports an empty volume list and a nil error. -/
def emptyAdder (σ Claim PV : Type) : Adder σ Claim PV :=
  { Add := fun _ s => ((some { Items := [] }, none), s) }

/-- A `Provisioner` that reports no volume and a nil error. -/
def idleProvisioner (σ Claim PV : Type) : Provisioner σ Claim PV :=
  { Provision := fun _ s => ((none, none), s) }

/-- An `Informer` that reports no volume and a nil error. -/
def idleInformer (σ Claim PV : Type) : Informer σ Claim PV :=
  { Info := fun _ s => ((none, none), s) }

/-- A `Deleter` that returns the volume it is given and a nil error. -/
def idleDeleter (σ Claim PV : Type) : Deleter σ Claim PV :=
  { Delete := fun v s => ((v, none), s) }

/-- An implementation of `VolumeInterface` that keeps no state: its identity is
the two given strings, `Profile` accepts every claim, and each accessor returns
the given handle. -/
def fixedBackend {σ Claim PV : Type} (label name : GoString)
    (hp : Handle (Provisioner σ Claim PV)) (hd : Handle (Deleter σ Claim PV))
    (hi : Handle (Informer σ Claim PV)) (hr : Handle (Reader σ Claim PV))
    (ha : Handle (Adder σ Claim PV)) : VolumeInterface σ Claim PV :=
  { Label := fun s => (label, s)
    Name := fun s => (name, s)
    Profile := fun _ s => ((true, none), s)
    Provisioner := fun s => (hp, s)
    Deleter := fun s => (hd, s)
    Informer := fun s => (hi, s)
    Reader := fun s => (hr, s)
    Adder := fun s => (ha, s) }

/-- The handle of a capability offered exactly when `b` holds. -/
def offer {α : Type} (b : Bool) (x : α) : Handle α := (if b then some x else none, b)

/-- A backend that supports exactly the capabilities whose flag is set. -/
def flagBackend (σ Claim PV : Type) (bp bd bi br ba : Bool) : VolumeInterface σ Claim PV :=
  fixedBackend (goStr "mock") (goStr "flags")
    (offer bp (idleProvisioner σ Claim PV)) (offer bd (idleDeleter σ Claim PV))
    (offer bi (idleInformer σ Claim PV)) (offer br (emptyReader σ Claim PV))
    (offer ba (emptyAdder σ Claim PV))

/-- A backend that supports only `Reader`. -/
def readerOnlyBackend (σ Claim PV : Type) : VolumeInterface σ Claim PV :=
  flagBackend σ Claim PV false false false true false

/-! ## Properties of `Commands` -/

theorem lookup_Commands {ρ : Type} [Inhabited ρ] (g : Globals) (metaPtr : Option (Meta ρ))
    (k : GoString) :
    (Commands g metaPtr).lookup k =
      if k = goStr "up" then some (upFactory g (resolveMeta metaPtr).Ui)
      else if k = goStr "version" then some (versionFactory g (resolveMeta metaPtr).Ui)
      else none := by
  simp [Commands, CommandMap.lookup]

theorem build_up {ρ : Type} [Inhabited ρ] (g : Globals) (metaPtr : Option (Meta ρ)) :
    (Commands g metaPtr).build (goStr "up") = upFactory g (resolveMeta metaPtr).Ui () := by
  simp [CommandMap.build, lookup_Commands]

theorem build_version {ρ : Type} [Inhabited ρ] (g : Globals) (metaPtr : Option (Meta ρ)) :
    (Commands g metaPtr).build (goStr "version")
      = versionFactory g (resolveMeta metaPtr).Ui () := by
  have h : goStr "version" ≠ goStr "up" := by decide
  simp [CommandMap.build, lookup_Commands, h]

theorem versionVer_eq (g : Globals) :
    versionVer g = some (match g.GitDescribe with
      | [] => g.Version
      | b :: t => if b = byte_v then t else b :: t) := by
  unfold versionVer
  cases hd : g.GitDescribe with
  | nil => simp
  | cons b t =>
    by_cases hb : b = byte_v <;> simp [GoString.index, GoString.sliceFrom1, hb]

theorem devGuard_false (g : Globals) : devGuard g g.VersionPrerelease = false := by
  unfold devGuard
  by_cases h : g.VersionPrerelease = [] <;> simp [h]

theorem versionRel_eq (g : Globals) : versionRel g = g.VersionPrerelease := by
  simp [versionRel, devGuard_false]

theorem resolveMeta_some_ui {ρ : Type} [Inhabited ρ] (u : UiValue) (rest : ρ) :
    (resolveMeta (some { Ui := some u, rest := rest })).Ui = some u := by
  simp [resolveMeta]

theorem resolveMeta_nil_ui {ρ : Type} [Inhabited ρ] (rest : ρ) :
    (resolveMeta (some { Ui := none, rest := rest })).Ui = some defaultBasicUi := by
  simp [resolveMeta]

theorem resolveMeta_nil (ρ : Type) [Inhabited ρ] :
    resolveMeta (none : Option (Meta ρ)) = resolveMeta (some (newMeta ρ)) := rfl

/-! ## Claims about `Commands` -/

/-- C1: for every `metaPtr` the map returned by `Commands` has exactly the keys
`"up"` and `"version"`; the factory under `"up"` returns an `UpCommand` and a
nil error, the factory under `"version"` returns a `VersionCommand` and a nil
error, and no other key holds a factory. -/
theorem Commands_keys {ρ : Type} [Inhabited ρ] (g : Globals) (metaPtr : Option (Meta ρ)) :
    (Commands g metaPtr).keys = [goStr "up", goStr "version"] ∧
    (Commands g metaPtr).keys.Nodup ∧
    (∀ k, ((Commands g metaPtr).lookup k).isSome = true ↔ (k = goStr "up" ∨ k = goStr "version")) ∧
    (∃ c : UpCommand, (Commands g metaPtr).build (goStr "up") = some (some (Command.Up c), none)) ∧
    (∃ c : VersionCommand,
      (Commands g metaPtr).build (goStr "version") = some (some (Command.Version c), none)) := by
  refine ⟨rfl, ?_, ?_, ?_, ?_⟩
  · have h : (Commands g metaPtr).keys = [goStr "up", goStr "version"] := rfl
    rw [h]
    decide
  · intro k
    rw [lookup_Commands]
    by_cases h1 : k = goStr "up"
    · simp [h1]
    · by_cases h2 : k = goStr "version"
      · have h3 : goStr "version" ≠ goStr "up" := by decide
        simp [h2, h3]
      · simp [h1, h2]
  · rw [build_up]
    exact ⟨_, rfl⟩
  · rw [build_version]
    simp only [versionFactory, versionVer_eq]
    exact ⟨_, rfl⟩

/-- C2: the `Version` field of the command built by the `"version"` factory is
`Version` when `GitDescribe` is empty, `GitDescribe` without its first byte when
that byte is `'v'` (one byte only: `"vv1.0"` gives `"v1.0"`), and `GitDescribe`
unchanged otherwise. -/
theorem version_field {ρ : Type} [Inhabited ρ] (g : Globals) (metaPtr : Option (Meta ρ)) :
    (∃ c : VersionCommand,
      (Commands g metaPtr).build (goStr "version") = some (some (Command.Version c), none) ∧
      c.Version = (match g.GitDescribe with
        | [] => g.Version
        | b :: t => if b = byte_v then t else b :: t)) ∧
    ∀ commit version pre : GoString, ∃ c : VersionCommand,
      (Commands { GitCommit := commit, GitDescribe := goStr "vv1.0",
                  Version := version, VersionPrerelease := pre } metaPtr).build (goStr "version")
        = some (some (Command.Version c), none) ∧
      c.Version = goStr "v1.0" := by
  constructor
  · rw [build_version]
    simp only [versionFactory, versionVer_eq]
    exact ⟨_, rfl, rfl⟩
  · intro commit version pre
    rw [build_version]
    simp only [versionFactory, versionVer_eq]
    have h : goStr "vv1.0" = byte_v :: goStr "v1.0" := by decide
    exact ⟨_, rfl, by simp [h]⟩

/-- C3: both factories of `Commands` carry the `Ui` of the meta parameter when
it is not nil; when `metaPtr` is nil or its `Ui` is nil both carry the default
`BasicUi` on `os.Stdin`, `os.Stdout` and `os.Stderr`; and `Commands(nil)` is
`Commands` of a pointer to a zero `Meta`. -/
theorem Commands_ui {ρ : Type} [Inhabited ρ] (g : Globals) (k : GoString)
    (hk : k = goStr "up" ∨ k = goStr "version") :
    (∀ (u : UiValue) (rest : ρ), ∃ c : Command,
      (Commands g (some { Ui := some u, rest := rest })).build k = some (some c, none) ∧
      c.Ui = some u) ∧
    (∀ rest : ρ, ∃ c : Command,
      (Commands g (some { Ui := none, rest := rest })).build k = some (some c, none) ∧
      c.Ui = some defaultBasicUi) ∧
    (∃ c : Command,
      (Commands g (none : Option (Meta ρ))).build k = some (some c, none) ∧
      c.Ui = some defaultBasicUi) ∧
    defaultBasicUi = UiValue.BasicUiPtr
      (some { Reader := some Stream.Stdin, Writer := some Stream.Stdout,
              ErrorWriter := some Stream.Stderr }) ∧
    Commands g (none : Option (Meta ρ)) = Commands g (some (newMeta ρ)) := by
  have key : ∀ metaPtr : Option (Meta ρ), ∃ c : Command,
      (Commands g metaPtr).build k = some (some c, none) ∧ c.Ui = (resolveMeta metaPtr).Ui := by
    intro metaPtr
    rcases hk with rfl | rfl
    · rw [build_up]
      exact ⟨_, rfl, rfl⟩
    · rw [build_version]
      simp only [versionFactory, versionVer_eq]
      exact ⟨_, rfl, rfl⟩
  refine ⟨?_, ?_, ?_, rfl, rfl⟩
  · intro u rest
    obtain ⟨c, h1, h2⟩ := key (some { Ui := some u, rest := rest })
    exact ⟨c, h1, by rw [h2, resolveMeta_some_ui]⟩
  · intro rest
    obtain ⟨c, h1, h2⟩ := key (some { Ui := none, rest := rest })
    exact ⟨c, h1, by rw [h2, resolveMeta_nil_ui]⟩
  · obtain ⟨c, h1, h2⟩ := key none
    exact ⟨c, h1, by rw [h2, resolveMeta_nil, newMeta, resolveMeta_nil_ui]⟩

/-- Witness for C3: the `"version"` key, with empty package variables and a
`Ui` that is not a `BasicUi`. -/
theorem Commands_ui_witness :
    (goStr "version" = goStr "up" ∨ goStr "version" = goStr "version") ∧
    ∃ c : Command,
      (Commands emptyGlobals
        (some { Ui := some (UiValue.Other 7), rest := () })).build (goStr "version")
        = some (some c, none) ∧
      c.Ui = some (UiValue.Other 7) :=
  ⟨Or.inr rfl,
   (Commands_ui emptyGlobals (goStr "version") (Or.inr rfl)).1 (UiValue.Other 7) ()⟩

/-- C7: the `VersionPrerelease` field of the command built by the `"version"`
factory is the package variable `VersionPrerelease`: the guard of the
assignment `rel = "dev"` is false for every value of the package variables. -/
theorem version_prerelease_field {ρ : Type} [Inhabited ρ] (g : Globals)
    (metaPtr : Option (Meta ρ)) :
    devGuard g g.VersionPrerelease = false ∧
    ∃ c : VersionCommand,
      (Commands g metaPtr).build (goStr "version") = some (some (Command.Version c), none) ∧
      c.VersionPrerelease = g.VersionPrerelease := by
  refine ⟨devGuard_false g, ?_⟩
  rw [build_version]
  simp only [versionFactory, versionVer_eq]
  exact ⟨_, rfl, versionRel_eq g⟩

/-! ## Claims about the volume provisioner contract -/

/-- C6: there is an implementation of `VolumeInterface` whose `Reader()` is
supported, whose `Provisioner()` and `Adder()` are not, and whose `Read` returns
an empty volume list with a nil error for every claim; and every combination of
the five supported flags is that of some implementation, which returns a
non-nil implementation exactly with the true flags. -/
theorem capability_tiers_independent (σ Claim PV : Type) :
    (∀ s : σ,
      ((readerOnlyBackend σ Claim PV).Provisioner s).1.2 = false ∧
      ((readerOnlyBackend σ Claim PV).Adder s).1.2 = false ∧
      ((readerOnlyBackend σ Claim PV).Reader s).1.2 = true ∧
      ∃ r : Reader σ Claim PV,
        ((readerOnlyBackend σ Claim PV).Reader s).1.1 = some r ∧
        ∀ (claim : Option Claim) (t : σ), r.Read claim t = ((some { Items := [] }, none), t)) ∧
    (∀ bp bd bi br ba : Bool, ∃ p : VolumeInterface σ Claim PV, ∀ s : σ,
      (p.Provisioner s).1.2 = bp ∧ (p.Provisioner s).1.1.isSome = bp ∧
      (p.Deleter s).1.2 = bd ∧ (p.Deleter s).1.1.isSome = bd ∧
      (p.Informer s).1.2 = bi ∧ (p.Informer s).1.1.isSome = bi ∧
      (p.Reader s).1.2 = br ∧ (p.Reader s).1.1.isSome = br ∧
      (p.Adder s).1.2 = ba ∧ (p.Adder s).1.1.isSome = ba) := by
  constructor
  · intro s
    exact ⟨rfl, rfl, rfl, emptyReader σ Claim PV, rfl, fun _ _ => rfl⟩
  · intro bp bd bi br ba
    refine ⟨flagBackend σ Claim PV bp bd bi br ba, fun s => ?_⟩
    simp only [flagBackend, fixedBackend, offer]
    cases bp <;> cases bd <;> cases bi <;> cases br <;> cases ba <;> simp

end Maya
